import Mathlib

/-!
Verification of the tournament-registration core of okamanx/deadline-esports
(src/discord_bot.py) against its specification.

The repository keeps a single JSON-backed record `data` with keys `slots`
(int), `teams` (list of objects with `team_name`, `players`, `captain_id`)
and `confirmed` (list of team names).  The command handlers `setslots`,
`register`, `confirm`, `slots` and `reset` mutate or read this record.  We
embed the record as `TournamentRecord`, each handler body as a pure function
from the record to a result and an updated record, and the JSON file as a
small `Json` tree together with `save_data` / `load_data` over an abstract
`Store` (file absent, file present but unreadable, or file with parsed
content).  Python `str.lower` is embedded as per-character lowering
(`pyLower`); all names appearing in the claims are ASCII, where the two
functions agree.
-/

/-- Embedding of Python `str.lower` (character-wise lowering). -/
def pyLower (s : String) : String := ⟨s.data.map Char.toLower⟩

/-- One element of `data["teams"]`: the dict built at discord_bot.py:146-150. -/
structure Team where
  team_name : String
  players : List String
  captain_id : Int
deriving DecidableEq, Repr

/-- The persisted record `data` with keys `slots`, `teams`, `confirmed`. -/
structure TournamentRecord where
  slots : Int
  teams : List Team
  confirmed : List String
deriving DecidableEq, Repr

/-- The default record `{"slots": 0, "teams": [], "confirmed": []}`
(discord_bot.py:37 and discord_bot.py:189). -/
def defaultRecord : TournamentRecord := { slots := 0, teams := [], confirmed := [] }

/-- Outcomes of the `register` handler, one per `ctx.send` message. -/
inductive RegisterResult
  | slotsFull
  | duplicateTeamName
  | registered
deriving DecidableEq, Repr

/-- Body of the `register` command (discord_bot.py:136-153): reject when
`len(data["teams"]) >= data["slots"]`, then scan `data["teams"]` for a
case-insensitive name match, else append the new team dict. -/
def register (r : TournamentRecord) (team_name : String) (players : List String)
    (callerId : Int) : RegisterResult × TournamentRecord :=
  if (r.teams.length : Int) ≥ r.slots then
    (.slotsFull, r)
  else if r.teams.any (fun t => pyLower team_name == pyLower t.team_name) then
    (.duplicateTeamName, r)
  else
    (.registered,
      { r with teams :=
          r.teams ++ [{ team_name := team_name, players := players, captain_id := callerId }] })

/-- Outcomes of the `confirm` handler, one per `ctx.send` message. -/
inductive ConfirmResult
  | noTeamForCaller
  | alreadyConfirmed
  | confirmedOk (team_name : String)
deriving DecidableEq, Repr

/-- Body of the `confirm` command (discord_bot.py:156-166): find the first
team whose `captain_id` equals the caller id; report `alreadyConfirmed` if
its name is in `data["confirmed"]`, else append the name. -/
def confirm (r : TournamentRecord) (callerId : Int) : ConfirmResult × TournamentRecord :=
  match r.teams.find? (fun t => t.captain_id == callerId) with
  | none => (.noTeamForCaller, r)
  | some t =>
    if t.team_name ∈ r.confirmed then
      (.alreadyConfirmed, r)
    else
      (.confirmedOk t.team_name, { r with confirmed := r.confirmed ++ [t.team_name] })

/-- Outcome of the admin-gated handlers: the `has_permissions(administrator=True)`
check either lets the body run or raises `MissingPermissions`. -/
inductive AdminResult
  | ok
  | unauthorized
deriving DecidableEq, Repr

/-- Body of the `setslots` command (discord_bot.py:128-133), together with its
administrator permission gate. -/
def setslots (r : TournamentRecord) (isAdmin : Bool) (n : Int) :
    AdminResult × TournamentRecord :=
  if isAdmin then (.ok, { r with slots := n }) else (.unauthorized, r)

/-- Body of the `reset` command (discord_bot.py:185-191), together with its
administrator permission gate: the record is replaced wholesale. -/
def reset (r : TournamentRecord) (isAdmin : Bool) : AdminResult × TournamentRecord :=
  if isAdmin then (.ok, defaultRecord) else (.unauthorized, r)

/-- Body of the `slots` command (discord_bot.py:168-172): the pair
`(filled, total)` rendered as "filled/total slots filled". -/
def slotsStatus (r : TournamentRecord) : Nat × Int := (r.teams.length, r.slots)

/-- JSON values, as produced by `json.load` / consumed by `json.dump`. -/
inductive Json
  | num (n : Int)
  | str (s : String)
  | arr (elems : List Json)
  | obj (fields : List (String × Json))

/-- Key lookup in a JSON object, as Python dict indexing `d[key]`. -/
def jLookup : List (String × Json) → String → Option Json
  | [], _ => none
  | (k, v) :: rest, key => if k = key then some v else jLookup rest key

/-- Read a JSON value as a string. -/
def asStr : Json → Option String
  | .str s => some s
  | _ => none

/-- Read a JSON value as an integer. -/
def asInt : Json → Option Int
  | .num n => some n
  | _ => none

/-- Decode every element of a list, failing if any element fails. -/
def mapOption (f : α → Option β) : List α → Option (List β)
  | [] => some []
  | a :: as =>
    match f a, mapOption f as with
    | some b, some bs => some (b :: bs)
    | _, _ => none

/-- Read a JSON value as a list of strings. -/
def asStrList : Json → Option (List String)
  | .arr es => mapOption asStr es
  | _ => none

/-- The JSON object `json.dump` writes for one team dict. -/
def encodeTeam (t : Team) : Json :=
  .obj [("team_name", .str t.team_name),
        ("players", .arr (t.players.map .str)),
        ("captain_id", .num t.captain_id)]

/-- Interpretation of a JSON object as a team dict, mirroring the field
accesses `team["team_name"]`, `team["players"]`, `team["captain_id"]`. -/
def decodeTeam : Json → Option Team
  | .obj fs =>
    match (jLookup fs "team_name").bind asStr,
          (jLookup fs "players").bind asStrList,
          (jLookup fs "captain_id").bind asInt with
    | some n, some ps, some c => some { team_name := n, players := ps, captain_id := c }
    | _, _, _ => none
  | _ => none

/-- Read a JSON value as a list of team dicts. -/
def asTeamList : Json → Option (List Team)
  | .arr es => mapOption decodeTeam es
  | _ => none

/-- The JSON object `save_data` writes for the whole record
(discord_bot.py:39-41). -/
def encodeRecord (r : TournamentRecord) : Json :=
  .obj [("slots", .num r.slots),
        ("teams", .arr (r.teams.map encodeTeam)),
        ("confirmed", .arr (r.confirmed.map .str))]

/-- Interpretation of a JSON object as the tournament record, mirroring the
accesses `data["slots"]`, `data["teams"]`, `data["confirmed"]`. -/
def decodeRecord : Json → Option TournamentRecord
  | .obj fs =>
    match (jLookup fs "slots").bind asInt,
          (jLookup fs "teams").bind asTeamList,
          (jLookup fs "confirmed").bind asStrList with
    | some s, some ts, some cs => some { slots := s, teams := ts, confirmed := cs }
    | _, _, _ => none
  | _ => none

/-- State of the backing file DATA_FILE: missing, present but failing to
open or parse, or present with parsed JSON content. -/
inductive Store
  | absent
  | unreadable
  | content (j : Json)

/-- `save_data` (discord_bot.py:39-41): overwrite the file with the JSON
encoding of the record. -/
def save_data (r : TournamentRecord) : Store := Store.content (encodeRecord r)

/-- The literal dict returned at discord_bot.py:37 when the file is absent. -/
def defaultJson : Json :=
  Json.obj [("slots", .num 0), ("teams", .arr []), ("confirmed", .arr [])]

/-- `load_data` (discord_bot.py:32-37): if `os.path.exists(DATA_FILE)` then
`json.load` the file, which raises when the file cannot be opened or parsed
(modelled as `Except.error`); otherwise return the default dict. -/
def load_data : Store → Except Unit Json
  | Store.absent => Except.ok defaultJson
  | Store.unreadable => Except.error ()
  | Store.content j => Except.ok j

/-- One inbound mutating command, with the administrator bit the gateway
attaches to the invoking user. -/
inductive Op
  | setslots (isAdmin : Bool) (n : Int)
  | register (name : String) (players : List String) (callerId : Int)
  | confirm (callerId : Int)
  | reset (isAdmin : Bool)

/-- Apply one command to the record, keeping only the state change. -/
def applyOp (r : TournamentRecord) : Op → TournamentRecord
  | Op.setslots a n => (setslots r a n).2
  | Op.register n p c => (register r n p c).2
  | Op.confirm c => (confirm r c).2
  | Op.reset a => (reset r a).2

/-- Run a sequence of commands from the default empty record. -/
def runOps (ops : List Op) : TournamentRecord := ops.foldl applyOp defaultRecord

/-- Invariant: every confirmed name is the name of some registered team. -/
def confirmedValid (r : TournamentRecord) : Prop :=
  ∀ s ∈ r.confirmed, ∃ t ∈ r.teams, t.team_name = s

/-- Arguments of one `register` call. -/
structure RegCall where
  name : String
  players : List String
  callerId : Int
deriving DecidableEq, Repr

/-- The team dict a successful `register` call appends. -/
def toTeam (c : RegCall) : Team :=
  { team_name := c.name, players := c.players, captain_id := c.callerId }

/-- Run a sequence of `register` calls, keeping only the state changes. -/
def registerSeq (r : TournamentRecord) (calls : List RegCall) : TournamentRecord :=
  calls.foldl (fun acc c => (register acc c.name c.players c.callerId).2) r

/-- A fresh record whose slot count has been set to k. -/
def initRecord (k : Int) : TournamentRecord := { slots := k, teams := [], confirmed := [] }

/-! Helper lemmas about `register`. -/

/-- register returns slotsFull and leaves the record untouched when at
or over capacity. -/
theorem register_full (r : TournamentRecord) (n : String) (p : List String) (c : Int)
    (h : (r.teams.length : Int) ≥ r.slots) :
    register r n p c = (RegisterResult.slotsFull, r) := by
  simp [register, h]

/-- register appends the new team when below capacity and no existing
name matches case-insensitively. -/
theorem register_success (r : TournamentRecord) (n : String) (p : List String) (c : Int)
    (hcap : (r.teams.length : Int) < r.slots)
    (hdup : ∀ t ∈ r.teams, pyLower n ≠ pyLower t.team_name) :
    register r n p c
      = (RegisterResult.registered,
         { r with teams := r.teams ++ [{ team_name := n, players := p, captain_id := c }] }) := by
  have h1 : ¬ ((r.teams.length : Int) ≥ r.slots) := by omega
  have h2 : r.teams.any (fun t => pyLower n == pyLower t.team_name) = false := by
    rw [List.any_eq_false]
    intro t ht
    simpa using hdup t ht
  simp [register, h1, h2]

/-- register reports a duplicate and leaves the record untouched when
below capacity and some existing name matches case-insensitively. -/
theorem register_dup (r : TournamentRecord) (n : String) (p : List String) (c : Int)
    (hcap : (r.teams.length : Int) < r.slots)
    (hdup : ∃ t ∈ r.teams, pyLower n = pyLower t.team_name) :
    register r n p c = (RegisterResult.duplicateTeamName, r) := by
  have h1 : ¬ ((r.teams.length : Int) ≥ r.slots) := by omega
  have h2 : r.teams.any (fun t => pyLower n == pyLower t.team_name) = true := by
    rw [List.any_eq_true]
    obtain ⟨t, ht, he⟩ := hdup
    exact ⟨t, ht, by simpa using he⟩
  simp [register, h1, h2]

/-- Unfolding of registerSeq on a cons. -/
theorem registerSeq_cons (r : TournamentRecord) (c : RegCall) (cs : List RegCall) :
    registerSeq r (c :: cs) = registerSeq (register r c.name c.players c.callerId).2 cs := rfl

/-- A batch of registrations with enough free capacity, names fresh for the
current record and pairwise distinct case-insensitively, appends exactly the
corresponding team dicts in order. -/
theorem registerSeq_fresh (calls : List RegCall) : ∀ r : TournamentRecord,
    ((r.teams.length : Int) + calls.length ≤ r.slots) →
    (∀ c ∈ calls, ∀ t ∈ r.teams, pyLower c.name ≠ pyLower t.team_name) →
    ((calls.map (fun c => pyLower c.name)).Nodup) →
    registerSeq r calls = { r with teams := r.teams ++ calls.map toTeam } := by
  induction calls with
  | nil => intro r _ _ _; simp [registerSeq]
  | cons c cs ih =>
    intro r hcap hfresh hdist
    have hlt : (r.teams.length : Int) < r.slots := by
      simp only [List.length_cons] at hcap
      push_cast at hcap
      omega
    have hstep := register_success r c.name c.players c.callerId hlt
      (fun t ht => hfresh c (List.mem_cons_self c cs) t ht)
    rw [registerSeq_cons, hstep]
    have hnodup := List.nodup_cons.mp hdist
    have ihr := ih { r with teams := r.teams ++ [toTeam c] } ?_ ?_ hnodup.2
    · rw [show ({ team_name := c.name, players := c.players, captain_id := c.callerId } : Team)
          = toTeam c from rfl, ihr]
      simp [List.append_assoc]
    · simp only [List.length_append, List.length_cons, List.length_singleton,
        List.length_nil] at hcap ⊢
      push_cast at hcap ⊢
      omega
    · intro c2 hc2 t ht
      rcases List.mem_append.mp ht with h | h
      · exact hfresh c2 (List.mem_cons_of_mem c hc2) t h
      · rcases List.mem_singleton.mp h with rfl
        intro heq
        apply hnodup.1
        rw [show pyLower (toTeam c).team_name = pyLower c.name from rfl] at heq
        show pyLower c.name ∈ List.map (fun u => pyLower u.name) cs
        rw [← heq]
        exact List.mem_map_of_mem (fun u => pyLower u.name) hc2

/-- One register call preserves the capacity bound and the slot count. -/
theorem register_preserves_bound (r : TournamentRecord) (n : String) (p : List String) (c : Int)
    (h : (r.teams.length : Int) ≤ r.slots) :
    ((register r n p c).2.teams.length : Int) ≤ (register r n p c).2.slots ∧
    (register r n p c).2.slots = r.slots := by
  unfold register
  split
  · exact ⟨h, rfl⟩
  · split
    · exact ⟨h, rfl⟩
    · rename_i h1 _
      refine ⟨?_, rfl⟩
      simp only [List.length_append, List.length_singleton]
      push_cast
      omega

/-- Any batch of register calls preserves the capacity bound and the slot
count. -/
theorem registerSeq_bound (calls : List RegCall) : ∀ r : TournamentRecord,
    (r.teams.length : Int) ≤ r.slots →
    ((registerSeq r calls).teams.length : Int) ≤ r.slots ∧
    (registerSeq r calls).slots = r.slots := by
  induction calls with
  | nil => intro r h; exact ⟨h, rfl⟩
  | cons c cs ih =>
    intro r h
    have hstep := register_preserves_bound r c.name c.players c.callerId h
    obtain ⟨ih1, ih2⟩ := ih (register r c.name c.players c.callerId).2 hstep.1
    rw [registerSeq_cons]
    exact ⟨hstep.2 ▸ ih1, hstep.2 ▸ ih2⟩

/-- C1: with slotCount = k and a sequence of k register calls with pairwise
distinct case-insensitive names, every further register attempt fails with
SlotsFull and appends nothing, and after any number of the calls the number
of teams stays at most k. -/
theorem register_capacity_bound (k : Nat) (calls : List RegCall)
    (hdist : (calls.map (fun c => pyLower c.name)).Nodup)
    (hlen : calls.length = k) :
    (∀ c : RegCall,
      register (registerSeq (initRecord k) calls) c.name c.players c.callerId
        = (RegisterResult.slotsFull, registerSeq (initRecord k) calls)) ∧
    (∀ i : Nat,
      ((registerSeq (initRecord k) (calls.take i)).teams.length : Int) ≤ (initRecord k).slots) := by
  have hfull : registerSeq (initRecord k) calls = { initRecord k with teams := calls.map toTeam } := by
    apply registerSeq_fresh calls (initRecord k)
    · simp [initRecord, hlen]
    · simp [initRecord]
    · exact hdist
  constructor
  · intro c
    apply register_full
    rw [hfull]
    simp [initRecord, hlen]
  · intro i
    exact (registerSeq_bound (calls.take i) (initRecord k) (by simp [initRecord])).1

/-- Witness for C1: with one slot filled by "Alpha", registering "Beta"
fails with SlotsFull and changes nothing. -/
theorem register_capacity_bound_witness :
    register (registerSeq (initRecord (1 : Nat)) [{ name := "Alpha", players := ["p1"], callerId := 1 }])
        "Beta" [] 2
      = (RegisterResult.slotsFull,
         registerSeq (initRecord (1 : Nat)) [{ name := "Alpha", players := ["p1"], callerId := 1 }]) :=
  (register_capacity_bound 1 [{ name := "Alpha", players := ["p1"], callerId := 1 }]
    (by decide) (by decide)).1 { name := "Beta", players := [], callerId := 2 }

/-- C2 counterexample: with slotCount 1, register "alpha" succeeds, and the
case-insensitive duplicate attempt "ALPHA" then fails with SlotsFull, not
DuplicateTeamName (the capacity check runs first); teams is unchanged. -/
theorem register_duplicate_at_capacity_cex :
    (register (initRecord 1) "alpha" [] 1).1 = RegisterResult.registered ∧
    pyLower "ALPHA" = pyLower "alpha" ∧
    (register (register (initRecord 1) "alpha" [] 1).2 "ALPHA" [] 2).1 = RegisterResult.slotsFull ∧
    (register (register (initRecord 1) "alpha" [] 1).2 "ALPHA" [] 2).1 ≠ RegisterResult.duplicateTeamName ∧
    (register (register (initRecord 1) "alpha" [] 1).2 "ALPHA" [] 2).2
      = (register (initRecord 1) "alpha" [] 1).2 := by
  decide

/-- C2 (amended): if a first register call succeeded and the record is still
below capacity, a second register call whose name is equal under
case-insensitive comparison fails with DuplicateTeamName and the record is
unchanged; at capacity the second call instead fails with SlotsFull, and in
either case the length of teams is unchanged. -/
theorem register_duplicate_below_capacity (r r1 : TournamentRecord) (n1 n2 : String)
    (p1 p2 : List String) (c1 c2 : Int)
    (hfirst : register r n1 p1 c1 = (RegisterResult.registered, r1))
    (hname : pyLower n2 = pyLower n1)
    (hcap : (r1.teams.length : Int) < r1.slots) :
    register r1 n2 p2 c2 = (RegisterResult.duplicateTeamName, r1) := by
  unfold register at hfirst
  split at hfirst
  · simp at hfirst
  · split at hfirst
    · simp at hfirst
    · have hr1 : r1 = { r with teams :=
          r.teams ++ [{ team_name := n1, players := p1, captain_id := c1 }] } := by
        have h2 := congrArg Prod.snd hfirst
        exact h2.symm
      apply register_dup r1 n2 p2 c2 hcap
      refine ⟨{ team_name := n1, players := p1, captain_id := c1 }, ?_, hname⟩
      rw [hr1]
      simp

/-- Witness for C2 (amended): slotCount 2, register "alpha", then "ALPHA"
fails with DuplicateTeamName. -/
theorem register_duplicate_below_capacity_witness :
    register (register (initRecord 2) "alpha" [] 1).2 "ALPHA" [] 2
      = (RegisterResult.duplicateTeamName, (register (initRecord 2) "alpha" [] 1).2) :=
  register_duplicate_below_capacity (initRecord 2) (register (initRecord 2) "alpha" [] 1).2
    "alpha" "ALPHA" [] [] 1 2 (by decide) (by decide) (by decide)

/-- C9: when the record is at or over capacity, register fails with
SlotsFull even if the name also collides case-insensitively with an
existing team; the duplicate check is never reached. -/
theorem register_full_before_duplicate (r : TournamentRecord) (n : String) (p : List String)
    (c : Int)
    (hfull : (r.teams.length : Int) ≥ r.slots)
    (_hdup : ∃ t ∈ r.teams, pyLower n = pyLower t.team_name) :
    register r n p c = (RegisterResult.slotsFull, r) :=
  register_full r n p c hfull

/-- Witness for C9: a full one-slot record holding "alpha" rejects "ALPHA"
with SlotsFull. -/
theorem register_full_before_duplicate_witness :
    register ({ slots := 1, teams := [{ team_name := "alpha", players := [], captain_id := 1 }], confirmed := [] } : TournamentRecord) "ALPHA" [] 2
      = (RegisterResult.slotsFull,
        ({ slots := 1, teams := [{ team_name := "alpha", players := [], captain_id := 1 }], confirmed := [] } : TournamentRecord)) :=
  register_full_before_duplicate _ "ALPHA" [] 2 (by decide) (by decide)

/-! Helper lemmas about `confirm`. -/

/-- confirm reports alreadyConfirmed and changes nothing when the first team
captained by the caller is already in the confirmed list. -/
theorem confirm_of_find_mem (r : TournamentRecord) (cid : Int) (t : Team)
    (hfind : r.teams.find? (fun u => u.captain_id == cid) = some t)
    (hc : t.team_name ∈ r.confirmed) :
    confirm r cid = (ConfirmResult.alreadyConfirmed, r) := by
  simp [confirm, hfind, hc]

/-- confirm appends the name of the first team captained by the caller when
it is not yet in the confirmed list. -/
theorem confirm_of_find_not_mem (r : TournamentRecord) (cid : Int) (t : Team)
    (hfind : r.teams.find? (fun u => u.captain_id == cid) = some t)
    (hc : t.team_name ∉ r.confirmed) :
    confirm r cid
      = (ConfirmResult.confirmedOk t.team_name,
         { r with confirmed := r.confirmed ++ [t.team_name] }) := by
  simp [confirm, hfind, hc]

/-- C3: for a caller who captains some team, re-running confirm on the state
left by a first confirm reports AlreadyConfirmed and leaves the record
unchanged, and confirm preserves freedom from duplicates in the confirmed
list. -/
theorem confirm_idempotent (r : TournamentRecord) (cid : Int)
    (h : ∃ t ∈ r.teams, t.captain_id = cid) :
    confirm (confirm r cid).2 cid = (ConfirmResult.alreadyConfirmed, (confirm r cid).2) ∧
    (r.confirmed.Nodup → (confirm r cid).2.confirmed.Nodup) := by
  have hsome : (r.teams.find? (fun t => t.captain_id == cid)).isSome := by
    rw [List.find?_isSome]
    obtain ⟨t, ht, he⟩ := h
    exact ⟨t, ht, by simpa using he⟩
  obtain ⟨t0, hfind⟩ := Option.isSome_iff_exists.mp hsome
  by_cases hc : t0.team_name ∈ r.confirmed
  · have h1 := confirm_of_find_mem r cid t0 hfind hc
    rw [h1]
    exact ⟨h1, fun hnd => hnd⟩
  · have h1 := confirm_of_find_not_mem r cid t0 hfind hc
    rw [h1]
    constructor
    · apply confirm_of_find_mem
      · exact hfind
      · simp
    · intro hnd
      show (r.confirmed ++ [t0.team_name]).Nodup
      simp [List.nodup_append, hnd, hc]

/-- Witness for C3: captain 5 confirms team "A" once; the repeated confirm
reports AlreadyConfirmed and changes nothing. -/
theorem confirm_idempotent_witness :
    confirm (confirm ({ slots := 2, teams := [{ team_name := "A", players := [], captain_id := 5 }], confirmed := [] } : TournamentRecord) 5).2 5
      = (ConfirmResult.alreadyConfirmed,
        (confirm ({ slots := 2, teams := [{ team_name := "A", players := [], captain_id := 5 }], confirmed := [] } : TournamentRecord) 5).2) :=
  (confirm_idempotent _ 5 (by decide)).1

/-- C8: when no registered team has the caller as captain, confirm fails
with NoTeamForCaller and the record is unchanged. -/
theorem confirm_no_team (r : TournamentRecord) (cid : Int)
    (h : ∀ t ∈ r.teams, t.captain_id ≠ cid) :
    confirm r cid = (ConfirmResult.noTeamForCaller, r) := by
  have hfind : r.teams.find? (fun t => t.captain_id == cid) = none := by
    rw [List.find?_eq_none]
    intro t ht
    simpa using h t ht
  simp [confirm, hfind]

/-- Witness for C8: team "Alpha" is captained by user 1, and confirm by
user 2 fails with NoTeamForCaller. -/
theorem confirm_no_team_witness :
    confirm ({ slots := 2, teams := [{ team_name := "Alpha", players := [], captain_id := 1 }], confirmed := [] } : TournamentRecord) 2
      = (ConfirmResult.noTeamForCaller,
        ({ slots := 2, teams := [{ team_name := "Alpha", players := [], captain_id := 1 }], confirmed := [] } : TournamentRecord)) :=
  confirm_no_team _ 2 (by decide)

/-- C10: when the caller captains several teams, confirm acts only on the
first one found in registration order: the confirmed list either stays
unchanged or gains exactly that team's name, that name is confirmed
afterwards, and every further confirm by the same caller reports
AlreadyConfirmed without changing the record, so no later team of that
caller is ever confirmed by them. -/
theorem confirm_earliest_only (r : TournamentRecord) (cid : Int) (t : Team)
    (hfind : r.teams.find? (fun u => u.captain_id == cid) = some t) :
    ((confirm r cid).2.confirmed = r.confirmed ∨
      (confirm r cid).2.confirmed = r.confirmed ++ [t.team_name]) ∧
    t.team_name ∈ (confirm r cid).2.confirmed ∧
    confirm (confirm r cid).2 cid = (ConfirmResult.alreadyConfirmed, (confirm r cid).2) := by
  by_cases hc : t.team_name ∈ r.confirmed
  · have h1 := confirm_of_find_mem r cid t hfind hc
    rw [h1]
    exact ⟨Or.inl rfl, hc, h1⟩
  · have h1 := confirm_of_find_not_mem r cid t hfind hc
    rw [h1]
    refine ⟨Or.inr rfl, by simp, ?_⟩
    apply confirm_of_find_mem
    · exact hfind
    · simp

/-- Witness for C10: user 7 captains both "A" and "B"; after confirming,
a second confirm reports AlreadyConfirmed, so "B" is never confirmed. -/
theorem confirm_earliest_only_witness :
    confirm (confirm ({ slots := 3, teams := [{ team_name := "A", players := [], captain_id := 7 }, { team_name := "B", players := [], captain_id := 7 }], confirmed := [] } : TournamentRecord) 7).2 7
      = (ConfirmResult.alreadyConfirmed,
        (confirm ({ slots := 3, teams := [{ team_name := "A", players := [], captain_id := 7 }, { team_name := "B", players := [], captain_id := 7 }], confirmed := [] } : TournamentRecord) 7).2) :=
  (confirm_earliest_only _ 7 { team_name := "A", players := [], captain_id := 7 } (by decide)).2.2

/-! Reachability invariant. -/

/-- Each command preserves the invariant that every confirmed name belongs
to a registered team. -/
theorem applyOp_confirmedValid (r : TournamentRecord) (op : Op) (h : confirmedValid r) :
    confirmedValid (applyOp r op) := by
  cases op with
  | setslots a n =>
    cases a with
    | false => exact h
    | true => exact h
  | reset a =>
    cases a with
    | false => exact h
    | true =>
      intro s hs
      simp [applyOp, reset, defaultRecord] at hs
  | register n p c =>
    show confirmedValid (register r n p c).2
    unfold register
    split
    · exact h
    · split
      · exact h
      · intro s hs
        obtain ⟨t, ht, he⟩ := h s hs
        exact ⟨t, List.mem_append_left _ ht, he⟩
  | confirm c =>
    show confirmedValid (confirm r c).2
    unfold confirm
    split
    · exact h
    · rename_i t heq
      split
      · exact h
      · intro s hs
        rcases List.mem_append.mp hs with hmem | hmem
        · obtain ⟨u, hu, he⟩ := h s hmem
          exact ⟨u, hu, he⟩
        · rcases List.mem_singleton.mp hmem with rfl
          exact ⟨t, List.mem_of_find?_eq_some heq, rfl⟩

/-- Folding any command list preserves the invariant. -/
theorem foldl_applyOp_confirmedValid (ops : List Op) : ∀ r : TournamentRecord,
    confirmedValid r → confirmedValid (ops.foldl applyOp r) := by
  induction ops with
  | nil => intro r h; exact h
  | cons op ops ih =>
    intro r h
    exact ih (applyOp r op) (applyOp_confirmedValid r op h)

/-- C4: every record reachable from the default empty record by setslots,
register, confirm and reset operations satisfies the invariant that every
entry of the confirmed list is the team name of some registered team. -/
theorem reachable_confirmed_subset_teams (ops : List Op) : confirmedValid (runOps ops) := by
  apply foldl_applyOp_confirmedValid
  intro s hs
  simp [defaultRecord] at hs

/-! Persistence round trip. -/

/-- Decoding a list of encoded strings gives back the strings. -/
theorem mapOption_str (ps : List String) : mapOption asStr (ps.map Json.str) = some ps := by
  induction ps with
  | nil => rfl
  | cons p ps ih => simp [mapOption, asStr, ih]

/-- Decoding an encoded team dict gives back the team. -/
theorem decodeTeam_encodeTeam (t : Team) : decodeTeam (encodeTeam t) = some t := by
  simp [decodeTeam, encodeTeam, jLookup, asStr, asStrList, asInt, mapOption_str]

/-- Decoding a list of encoded team dicts gives back the teams. -/
theorem mapOption_team (ts : List Team) : mapOption decodeTeam (ts.map encodeTeam) = some ts := by
  induction ts with
  | nil => rfl
  | cons t ts ih => simp [mapOption, decodeTeam_encodeTeam, ih]

/-- Decoding an encoded record gives back the record. -/
theorem decodeRecord_encodeRecord (r : TournamentRecord) :
    decodeRecord (encodeRecord r) = some r := by
  simp [decodeRecord, encodeRecord, jLookup, asInt, asTeamList, asStrList,
    mapOption_str, mapOption_team]

/-- C5: saving any record and loading it back returns exactly the JSON that
was written, and interpreting that JSON yields a record equal to the one
saved: the persisted layout round-trips losslessly. -/
theorem save_load_roundtrip (r : TournamentRecord) :
    load_data (save_data r) = Except.ok (encodeRecord r) ∧
    decodeRecord (encodeRecord r) = some r :=
  ⟨rfl, decodeRecord_encodeRecord r⟩

/-- C6 counterexample: when the backing file exists but cannot be opened or
parsed, load_data propagates the failure instead of returning the default
record. -/
theorem load_unreadable_cex :
    load_data Store.unreadable = Except.error () ∧
    load_data Store.unreadable ≠ Except.ok defaultJson := by
  refine ⟨rfl, ?_⟩
  simp [load_data]

/-- C6 (amended): load_data returns the default empty record only when the
backing store is absent; when the store exists but is unreadable or
unparsable, the read failure propagates to the caller. -/
theorem load_default_when_absent :
    load_data Store.absent = Except.ok defaultJson ∧
    decodeRecord defaultJson = some defaultRecord ∧
    load_data Store.unreadable = Except.error () :=
  ⟨rfl, decodeRecord_encodeRecord defaultRecord, rfl⟩

/-- C7: reset by an administrator replaces the record with the default empty
record, and the slots command on the result reports 0 filled of 0 total. -/
theorem reset_slotsStatus (r : TournamentRecord) :
    (reset r true).2 = defaultRecord ∧ slotsStatus (reset r true).2 = (0, 0) :=
  ⟨rfl, rfl⟩
